import Mathlib

/-!
Verification of the conversational chat-bot and the basics script of the
open-ai-tutorial repository.

The chat bot (chat-bot/index.ts) keeps a mutable array `chatMemory` seeded
with one system turn, reads user input in a `while (true)` loop, breaks on
the input whose lowercase form is "exit", otherwise pushes a user turn and
calls `chatCompletion`, which sends the whole memory to the remote
completion API, extracts `response.choices[0].message` and pushes a turn
built from its `role` and `content` fields.  Any rejection reaches
`main().catch`, which logs a diagnostic and calls `process.exit(1)`.

The basics script (src/basics/index.ts) makes one completion call, saves
the raw response to a file and logs it; its `main` wraps everything in a
`try/catch` that logs the error and does NOT rethrow, so the process ends
with exit status 0 even when the call or the file write fails.

The embedding below is a shallow one: the remote API and the input stream
are oracles (an `Except Unit Response` per call, a `List String` script of
user lines), and the loop is a structurally recursive function over the
script that returns the final memory together with an instrumentation
trace: the number of completion calls made, the history sent on each call,
and every memory snapshot taken after a push.
-/

set_option maxRecDepth 400000

/-- The `toLocaleLowerCase()` call of the exit check, modelled as a
character-wise lowercase map (the inputs of interest are ASCII; locale
tailoring is out of scope). -/
def toLocaleLowerCase (s : String) : String :=
  String.mk (s.data.map Char.toLower)

/-- One conversation turn as stored in `chatMemory`: the object pushed by the
source has exactly a `role` field and a `content` field.  Either field holds
whatever value was read from the response message, which can be `undefined`
when that message lacks the field, so both are modelled as `Option String`
(`none` is `undefined` or `null`). -/
structure Turn where
  role : Option String
  content : Option String
deriving DecidableEq

/-- The message carried by a choice of the remote response.  The payload is
untrusted JSON: any of its fields may be missing, so `role` and `content` are
`Option String` (`none` reads as `undefined`).  Besides them the remote
message may carry further fields the chat bot never reads; their payload is
abstracted as a string, and `tool_calls = some s` models a response message
bearing a tool-call request. -/
structure RespMessage where
  role : Option String
  content : Option String
  tool_calls : Option String
deriving DecidableEq

/-- One element of the `choices` array of the remote response.  `message =
none` models a payload whose choice is missing the `message` field (reading
`.message` then yields `undefined` in the source language). -/
structure Choice where
  message : Option RespMessage
deriving DecidableEq

/-- The remote response payload, reduced to the only part the chat bot reads:
the `choices` array. -/
structure Response where
  choices : List Choice
deriving DecidableEq

/-- How a run of `chatCompletion` can fail: the SDK call itself rejects
(network failure or non-success status), or the payload is malformed and the
property access `response.choices[0].message` / `responseMessage.role` throws
a TypeError on `undefined`. -/
inductive CompletionError where
  | apiReject
  | malformedPayload
deriving DecidableEq

/-- The system prompt the source seeds `chatMemory` with. -/
def systemPrompt : String :=
  "You are my personal AI assistant. Your role is to provide clear, accurate, and well-structured responses to my queries. Always explain concepts in a simple way, offer practical examples when needed, and ensure your answers are relevant to my context as a software developer. If code is requested, provide clean, working, and well-commented code. Stay professional, concise, and supportive."

/-- The initial system turn of `chatMemory`. -/
def systemTurn : Turn :=
  { role := some "system", content := some systemPrompt }

/-- The initial value of the `chatMemory` array: one system turn. -/
def chatMemory : List Turn := [systemTurn]

/-- The user turn pushed for one line of input: `{ role: "user", content:
userInput }`, the input stored verbatim. -/
def userTurn (s : String) : Turn :=
  { role := some "user", content := some s }

/-- The body of `chatCompletion` after the SDK call resolved to `resp`:
extract `response.choices[0].message` and push `{ role: responseMessage.role,
content: responseMessage.content }` onto the memory.  An empty `choices`
array makes `choices[0]` be `undefined`, so `.message` throws; a missing
`message` field makes `responseMessage` be `undefined`, so `.role` throws.
Either way nothing is pushed.  A message object that is present but lacks
its `role` or `content` fields throws nothing: the fields read as
`undefined` and the push succeeds with those degenerate values, since the
source performs no validation. -/
def chatCompletion (resp : Response) (mem : List Turn) :
    Except CompletionError (List Turn) :=
  match resp.choices with
  | [] => .error .malformedPayload
  | c :: _ =>
    match c.message with
    | none => .error .malformedPayload
    | some m => .ok (mem ++ [{ role := m.role, content := m.content }])

/-- One full completion call: the SDK promise either rejects (`.error ()`
from the oracle) or resolves to a payload handed to `chatCompletion`. -/
def completionCall (o : Except Unit Response) (mem : List Turn) :
    Except CompletionError (List Turn) :=
  match o with
  | .error _ => .error .apiReject
  | .ok resp => chatCompletion resp mem

/-- How a run of the chat loop ended: the user typed the termination token,
or an error reached `main().catch`. -/
inductive Outcome where
  | exited
  | crashed (e : CompletionError)
deriving DecidableEq

/-- Result of running the chat loop on a finite script of user inputs:
the final memory, the number of completion calls made, the history sent on
each call (in order), every memory state recorded right after a push (in
order), and how the loop ended (`none`: the script ran out while the loop
was still awaiting input). -/
structure RunResult where
  finalMem : List Turn
  calls : Nat
  reqs : List (List Turn)
  snaps : List (List Turn)
  outcome : Option Outcome
deriving DecidableEq

/-- The `while (true)` loop of `main`, run from memory `mem` with the oracle
consulted from call index `k` on.  Each iteration reads the next scripted
input; if its lowercase form is "exit" the loop breaks at once, otherwise it
pushes the user turn, performs one completion call on the full memory, and
on success pushes the assistant turn and continues; a failure propagates out
of `main` (the loop stops, outcome `crashed`). -/
def runLoopFrom (oracle : Nat → Except Unit Response) :
    List String → Nat → List Turn → RunResult
  | [], _, mem => ⟨mem, 0, [], [], none⟩
  | input :: rest, k, mem =>
    if toLocaleLowerCase input = "exit" then
      ⟨mem, 0, [], [], some .exited⟩
    else
      let mem1 := mem ++ [userTurn input]
      match completionCall (oracle k) mem1 with
      | .ok mem2 =>
        let r := runLoopFrom oracle rest (k + 1) mem2
        ⟨r.finalMem, r.calls + 1, mem1 :: r.reqs, mem1 :: mem2 :: r.snaps,
          r.outcome⟩
      | .error e => ⟨mem1, 1, [mem1], [mem1], some (.crashed e)⟩

/-- The chat bot `main`: run the loop from the seeded memory. -/
def mainLoop (oracle : Nat → Except Unit Response) (inputs : List String) :
    RunResult :=
  runLoopFrom oracle inputs 0 chatMemory

/-- Exit status of the chat process for a finished run: breaking out of the
loop resolves `main` (status 0); a rejection reaches `main().catch`, which
calls `process.exit(1)`.  `none` while the loop is still awaiting input. -/
def runExit (r : RunResult) : Option Nat :=
  match r.outcome with
  | some .exited => some 0
  | some (.crashed _) => some 1
  | none => none

/-- Diagnostics printed on stderr by the chat process after the loop: the
`main().catch` handler logs one line before exiting. -/
def runStderr (r : RunResult) : List String :=
  match r.outcome with
  | some (.crashed _) => ["Unexpected error in chat bot:"]
  | _ => []

/-- The startup guard both scripts share: `if (!process.env.GROQ_API_KEY)
throw`.  In the source language an absent variable reads as `undefined` and
an empty string is falsy, so both fail the guard. -/
def startupOk (env : String → Option String) : Bool :=
  match env "GROQ_API_KEY" with
  | none => false
  | some s => s != ""

/-- Result of launching the chat process: the module-level guard throws
before `main` ever runs (`configError`), or the loop runs. -/
inductive ProgResult where
  | configError
  | ran (r : RunResult)
deriving DecidableEq

/-- The chat program from process start: check the credential, then run the
loop. -/
def chatProgram (env : String → Option String)
    (oracle : Nat → Except Unit Response) (inputs : List String) :
    ProgResult :=
  if startupOk env then .ran (mainLoop oracle inputs) else .configError

/-- Number of completion calls the chat process made. -/
def progCalls : ProgResult → Nat
  | .configError => 0
  | .ran r => r.calls

/-- Result of one run of the basics script: completion calls made, stderr
diagnostics printed, process exit status, whether the response file was
written, and whether the run died on the startup guard. -/
structure BasicsResult where
  calls : Nat
  printed : List String
  exitCode : Nat
  saved : Bool
  configError : Bool
deriving DecidableEq

/-- The basics script: after the startup guard, `main` makes one completion
call and saves the response.  Its `try/catch` logs any error and does not
rethrow, so `main` always resolves and the process exits with status 0; a
file-write failure is logged once by `saveResponseToFile` and once more by
`main`.  Only the startup throw escapes, ending the process with status 1. -/
def basicsProgram (env : String → Option String)
    (api : Except Unit Response) (write : Except Unit Unit) : BasicsResult :=
  if startupOk env then
    match api with
    | .error _ => ⟨1, ["Error in main function:"], 0, false, false⟩
    | .ok _ =>
      match write with
      | .error _ =>
        ⟨1, ["Error saving file:", "Error in main function:"], 0, false, false⟩
      | .ok _ => ⟨1, [], 0, true, false⟩
  else ⟨0, [], 1, false, true⟩

/-- The expression `response.choices[0]?.message` read as an optional value:
`none` exactly when the `choices` array is empty or its first element has no
`message` field, the two malformed-payload shapes. -/
def respMessage (r : Response) : Option RespMessage :=
  r.choices.head?.bind Choice.message

/-- Role pattern of `n` loop iterations: a user turn then an assistant turn,
`n` times. -/
def altRoles : Nat → List (Option String)
  | 0 => []
  | n + 1 => some "user" :: some "assistant" :: altRoles n

/-- `s` extends `m` by exactly one element at the end. -/
def oneAppend (m s : List Turn) : Bool :=
  decide (s.dropLast = m) && !s.isEmpty

/-- The snapshot list is a chain of single appends starting from `m`: each
recorded memory state is the previous one with one turn added at the end. -/
def chainB : List Turn → List (List Turn) → Bool
  | _, [] => true
  | m, s :: rest => oneAppend m s && chainB s rest

/-- A well-formed assistant message, used to instantiate success runs. -/
def msgOk : RespMessage :=
  { role := some "assistant", content := some "hello", tool_calls := none }

/-- A well-formed response payload with one choice carrying `msgOk`. -/
def respOk : Response := { choices := [{ message := some msgOk }] }

/-- An oracle whose every call succeeds with the payload `respOk`. -/
def oracleOk : Nat → Except Unit Response := fun _ => .ok respOk

/-- An oracle whose every call rejects, as on a network failure. -/
def oracleErr : Nat → Except Unit Response := fun _ => .error ()

/-- An environment holding a non-empty `GROQ_API_KEY`. -/
def envOk : String → Option String := fun _ => some "key"

/-- An environment with no variables set at all. -/
def envEmpty : String → Option String := fun _ => none

/-- A malformed payload: the `choices` array is empty. -/
def respEmpty : Response := { choices := [] }

/-- A response message that carries a tool-call request besides its text. -/
def msgTool : RespMessage :=
  { role := some "assistant", content := some "calling a tool",
    tool_calls := some "get_weather" }

/-- A payload whose first choice carries `msgTool`. -/
def respTool : Response := { choices := [{ message := some msgTool }] }

/-- A message object that is present but missing both its `role` and its
`content` fields, as in the payload `\x7bchoices: [\x7bmessage: \x7b\x7d\x7d]\x7d`. -/
def msgNoFields : RespMessage :=
  { role := none, content := none, tool_calls := none }

/-- A malformed payload whose first choice carries a message object with no
`role` and no `content` field. -/
def respNoFields : Response := { choices := [{ message := some msgNoFields }] }

/-! ## Helper lemmas about one loop iteration -/

/-- Running the loop on an exhausted script leaves everything untouched. -/
theorem runLoopFrom_nil (oracle : Nat → Except Unit Response) (k : Nat)
    (mem : List Turn) : runLoopFrom oracle [] k mem = ⟨mem, 0, [], [], none⟩ :=
  rfl

/-- An input whose lowercase form is the termination token breaks the loop
at once. -/
theorem runLoopFrom_exit (oracle : Nat → Except Unit Response)
    (input : String) (rest : List String) (k : Nat) (mem : List Turn)
    (h : toLocaleLowerCase input = "exit") :
    runLoopFrom oracle (input :: rest) k mem = ⟨mem, 0, [], [], some .exited⟩ := by
  simp [runLoopFrom, h]

/-- A non-exit input with a successful completion call pushes the user turn,
records the request and both snapshots, and continues with the new memory. -/
theorem runLoopFrom_ok (oracle : Nat → Except Unit Response)
    (input : String) (rest : List String) (k : Nat) (mem mem2 : List Turn)
    (h : toLocaleLowerCase input ≠ "exit")
    (hc : completionCall (oracle k) (mem ++ [userTurn input]) = .ok mem2) :
    runLoopFrom oracle (input :: rest) k mem =
      ⟨(runLoopFrom oracle rest (k + 1) mem2).finalMem,
        (runLoopFrom oracle rest (k + 1) mem2).calls + 1,
        (mem ++ [userTurn input]) :: (runLoopFrom oracle rest (k + 1) mem2).reqs,
        (mem ++ [userTurn input]) :: mem2 ::
          (runLoopFrom oracle rest (k + 1) mem2).snaps,
        (runLoopFrom oracle rest (k + 1) mem2).outcome⟩ := by
  simp [runLoopFrom, h, hc]

/-- A non-exit input with a failing completion call leaves the memory at the
user turn just pushed and ends the run crashed. -/
theorem runLoopFrom_err (oracle : Nat → Except Unit Response)
    (input : String) (rest : List String) (k : Nat) (mem : List Turn)
    (e : CompletionError)
    (h : toLocaleLowerCase input ≠ "exit")
    (hc : completionCall (oracle k) (mem ++ [userTurn input]) = .error e) :
    runLoopFrom oracle (input :: rest) k mem =
      ⟨mem ++ [userTurn input], 1, [mem ++ [userTurn input]],
        [mem ++ [userTurn input]], some (.crashed e)⟩ := by
  simp [runLoopFrom, h, hc]

/-- `chatCompletion` on a payload missing its first message fails without
touching the memory. -/
theorem chatCompletion_of_respMessage_none (resp : Response) (mem : List Turn)
    (h : respMessage resp = none) :
    chatCompletion resp mem = .error .malformedPayload := by
  rcases resp with ⟨choices⟩
  cases choices with
  | nil => rfl
  | cons c cs =>
    rcases c with ⟨msg⟩
    cases msg with
    | none => rfl
    | some m => simp [respMessage] at h

/-- `chatCompletion` on a payload carrying a first message appends exactly
the turn built from that message's role and content. -/
theorem chatCompletion_of_respMessage_some (resp : Response) (mem : List Turn)
    (m : RespMessage) (h : respMessage resp = some m) :
    chatCompletion resp mem =
      .ok (mem ++ [{ role := m.role, content := m.content }]) := by
  rcases resp with ⟨choices⟩
  cases choices with
  | nil => simp [respMessage] at h
  | cons c cs =>
    rcases c with ⟨msg⟩
    cases msg with
    | none => simp [respMessage] at h
    | some m' =>
      simp [respMessage] at h
      subst h
      rfl

/-- A successful completion call appends exactly one turn. -/
theorem completionCall_ok_append (o : Except Unit Response)
    (mem mem2 : List Turn) (hc : completionCall o mem = .ok mem2) :
    ∃ t, mem2 = mem ++ [t] := by
  cases o with
  | error e => simp [completionCall] at hc
  | ok resp =>
    cases hm : respMessage resp with
    | none =>
      rw [completionCall, chatCompletion_of_respMessage_none resp mem hm] at hc
      cases hc
    | some m =>
      rw [completionCall, chatCompletion_of_respMessage_some resp mem m hm] at hc
      cases hc
      exact ⟨_, rfl⟩

/-! ## Helper lemmas about whole runs -/

/-- The memory a run starts from is a prefix of the memory it ends with. -/
theorem mem_prefix_finalMem (oracle : Nat → Except Unit Response) :
    ∀ (inputs : List String) (k : Nat) (mem : List Turn),
      mem <+: (runLoopFrom oracle inputs k mem).finalMem := by
  intro inputs
  induction inputs with
  | nil => intro k mem; simp [runLoopFrom_nil]
  | cons input rest ih =>
    intro k mem
    by_cases hex : toLocaleLowerCase input = "exit"
    · simp [runLoopFrom_exit oracle input rest k mem hex]
    · cases hc : completionCall (oracle k) (mem ++ [userTurn input]) with
      | ok mem2 =>
        rw [runLoopFrom_ok oracle input rest k mem mem2 hex hc]
        refine List.IsPrefix.trans ?_ (ih (k + 1) mem2)
        obtain ⟨t, ht⟩ := completionCall_ok_append _ _ _ hc
        subst ht
        exact ⟨[userTurn input, t], by simp⟩
      | error e =>
        rw [runLoopFrom_err oracle input rest k mem e hex hc]
        exact ⟨[userTurn input], rfl⟩

/-- Appending one element to `m` satisfies `oneAppend m`. -/
theorem oneAppend_concat (m : List Turn) (t : Turn) :
    oneAppend m (m ++ [t]) = true := by
  simp [oneAppend]

/-- The snapshots of a run form a chain of single appends from the starting
memory: each push adds exactly one turn at the end. -/
theorem chainB_snaps (oracle : Nat → Except Unit Response) :
    ∀ (inputs : List String) (k : Nat) (mem : List Turn),
      chainB mem (runLoopFrom oracle inputs k mem).snaps = true := by
  intro inputs
  induction inputs with
  | nil => intro k mem; simp [runLoopFrom_nil, chainB]
  | cons input rest ih =>
    intro k mem
    by_cases hex : toLocaleLowerCase input = "exit"
    · simp [runLoopFrom_exit oracle input rest k mem hex, chainB]
    · cases hc : completionCall (oracle k) (mem ++ [userTurn input]) with
      | ok mem2 =>
        rw [runLoopFrom_ok oracle input rest k mem mem2 hex hc]
        obtain ⟨t, ht⟩ := completionCall_ok_append _ _ _ hc
        simp only [chainB, Bool.and_eq_true]
        refine ⟨oneAppend_concat mem (userTurn input), ?_, ih (k + 1) mem2⟩
        rw [ht]
        exact oneAppend_concat _ t
      | error e =>
        rw [runLoopFrom_err oracle input rest k mem e hex hc]
        simp [chainB, oneAppend_concat]

/-- The last recorded state of a run (the starting memory when nothing was
pushed) is the final memory. -/
theorem getLast_snaps (oracle : Nat → Except Unit Response) :
    ∀ (inputs : List String) (k : Nat) (mem : List Turn),
      (mem :: (runLoopFrom oracle inputs k mem).snaps).getLast? =
        some (runLoopFrom oracle inputs k mem).finalMem := by
  intro inputs
  induction inputs with
  | nil => intro k mem; simp [runLoopFrom_nil]
  | cons input rest ih =>
    intro k mem
    by_cases hex : toLocaleLowerCase input = "exit"
    · simp [runLoopFrom_exit oracle input rest k mem hex]
    · cases hc : completionCall (oracle k) (mem ++ [userTurn input]) with
      | ok mem2 =>
        rw [runLoopFrom_ok oracle input rest k mem mem2 hex hc]
        simp only [List.getLast?_cons_cons]
        exact ih (k + 1) mem2
      | error e =>
        rw [runLoopFrom_err oracle input rest k mem e hex hc]
        simp

/-- Along a chain of single appends from a non-empty list, every state keeps
the same first element. -/
theorem chainB_head_eq (t : Turn) :
    ∀ (snaps : List (List Turn)) (m : List Turn),
      chainB m snaps = true → m.head? = some t →
      ∀ s ∈ snaps, s.head? = some t := by
  intro snaps
  induction snaps with
  | nil => intro m _ _ s hs; simp at hs
  | cons s0 rest ih =>
    intro m hch hm s hs
    simp only [chainB, Bool.and_eq_true] at hch
    obtain ⟨h0, hrest⟩ := hch
    simp only [oneAppend, Bool.and_eq_true, decide_eq_true_eq,
      Bool.not_eq_true', List.isEmpty_eq_false] at h0
    obtain ⟨hdrop, hne⟩ := h0
    have hs0 : s0.head? = some t := by
      have hsplit : s0.dropLast ++ [s0.getLast hne] = s0 :=
        List.dropLast_append_getLast hne
      rw [hdrop] at hsplit
      cases m with
      | nil => simp at hm
      | cons a m' =>
        cases hm
        rw [← hsplit]
        rfl
    rcases List.mem_cons.mp hs with rfl | hs'
    · exact hs0
    · exact ih s0 hrest hs0 s hs'

/-- The history recorded for the i-th completion call is exactly the memory
state recorded by the push made just before that call. -/
theorem reqs_getElem_snaps (oracle : Nat → Except Unit Response) :
    ∀ (inputs : List String) (k : Nat) (mem : List Turn) (i : Nat),
      (runLoopFrom oracle inputs k mem).reqs[i]? =
        (runLoopFrom oracle inputs k mem).snaps[2 * i]? := by
  intro inputs
  induction inputs with
  | nil => intro k mem i; simp [runLoopFrom_nil]
  | cons input rest ih =>
    intro k mem i
    by_cases hex : toLocaleLowerCase input = "exit"
    · simp [runLoopFrom_exit oracle input rest k mem hex]
    · cases hc : completionCall (oracle k) (mem ++ [userTurn input]) with
      | ok mem2 =>
        rw [runLoopFrom_ok oracle input rest k mem mem2 hex hc]
        cases i with
        | zero => simp
        | succ i =>
          have h2 : 2 * (i + 1) = 2 * i + 1 + 1 := by omega
          rw [h2]
          simp only [List.getElem?_cons_succ]
          exact ih (k + 1) mem2 i
      | error e =>
        rw [runLoopFrom_err oracle input rest k mem e hex hc]
        cases i with
        | zero => simp
        | succ i =>
          have h2 : 2 * (i + 1) = 2 * i + 1 + 1 := by omega
          rw [h2]
          simp

/-- Exactly one history is recorded per completion call made. -/
theorem reqs_length_calls (oracle : Nat → Except Unit Response) :
    ∀ (inputs : List String) (k : Nat) (mem : List Turn),
      (runLoopFrom oracle inputs k mem).reqs.length =
        (runLoopFrom oracle inputs k mem).calls := by
  intro inputs
  induction inputs with
  | nil => intro k mem; simp [runLoopFrom_nil]
  | cons input rest ih =>
    intro k mem
    by_cases hex : toLocaleLowerCase input = "exit"
    · simp [runLoopFrom_exit oracle input rest k mem hex]
    · cases hc : completionCall (oracle k) (mem ++ [userTurn input]) with
      | ok mem2 =>
        rw [runLoopFrom_ok oracle input rest k mem mem2 hex hc]
        simp [ih (k + 1) mem2]
      | error e =>
        rw [runLoopFrom_err oracle input rest k mem e hex hc]
        rfl

/-- Every history sent to the completion API during a run is a prefix of the
final memory of that run. -/
theorem reqs_prefix_finalMem (oracle : Nat → Except Unit Response) :
    ∀ (inputs : List String) (k : Nat) (mem : List Turn) (q : List Turn),
      q ∈ (runLoopFrom oracle inputs k mem).reqs →
      q <+: (runLoopFrom oracle inputs k mem).finalMem := by
  intro inputs
  induction inputs with
  | nil => intro k mem q hq; simp [runLoopFrom_nil] at hq
  | cons input rest ih =>
    intro k mem q hq
    by_cases hex : toLocaleLowerCase input = "exit"
    · rw [runLoopFrom_exit oracle input rest k mem hex] at hq
      simp at hq
    · cases hc : completionCall (oracle k) (mem ++ [userTurn input]) with
      | ok mem2 =>
        rw [runLoopFrom_ok oracle input rest k mem mem2 hex hc] at hq ⊢
        rcases List.mem_cons.mp hq with rfl | hq'
        · obtain ⟨t, ht⟩ := completionCall_ok_append _ _ _ hc
          refine List.IsPrefix.trans ?_ (mem_prefix_finalMem oracle rest (k + 1) mem2)
          rw [ht]
          exact ⟨[t], rfl⟩
        · exact ih (k + 1) mem2 q hq'
      | error e =>
        rw [runLoopFrom_err oracle input rest k mem e hex hc] at hq ⊢
        rcases List.mem_cons.mp hq with rfl | hq'
        · exact List.prefix_refl _
        · simp at hq'

/-- Each loop iteration contributes the role pair user, assistant. -/
theorem altRoles_length : ∀ n : Nat, (altRoles n).length = 2 * n := by
  intro n
  induction n with
  | zero => rfl
  | succ n ih => simp [altRoles, ih]; omega

/-- When no input is the termination token and every completion call
resolves to a well formed payload whose message has role assistant, a run
appends exactly the role pattern user, assistant once per input. -/
theorem map_role_runLoopFrom (oracle : Nat → Except Unit Response)
    (hok : ∀ j, ∃ resp m, oracle j = .ok resp ∧ respMessage resp = some m ∧
      m.role = some "assistant") :
    ∀ (inputs : List String),
      (∀ s ∈ inputs, toLocaleLowerCase s ≠ "exit") →
      ∀ (k : Nat) (mem : List Turn),
        (runLoopFrom oracle inputs k mem).finalMem.map Turn.role =
          mem.map Turn.role ++ altRoles inputs.length := by
  intro inputs
  induction inputs with
  | nil => intro _ k mem; simp [runLoopFrom_nil, altRoles]
  | cons input rest ih =>
    intro hexit k mem
    have hne : toLocaleLowerCase input ≠ "exit" := hexit input (by simp)
    obtain ⟨resp, m, hor, hrm, hrole⟩ := hok k
    have hc : completionCall (oracle k) (mem ++ [userTurn input]) =
        .ok ((mem ++ [userTurn input]) ++
          [{ role := m.role, content := m.content }]) := by
      rw [hor]
      exact chatCompletion_of_respMessage_some resp _ m hrm
    rw [runLoopFrom_ok oracle input rest k mem _ hne hc]
    have hrec := ih (fun s hs => hexit s (by simp [hs])) (k + 1)
      ((mem ++ [userTurn input]) ++ [{ role := m.role, content := m.content }])
    simp only [hrec]
    simp [altRoles, userTurn, hrole]

/-! ## Claim theorems -/

/-- C1: in the interactive chat loop, for every sequence of N user turns
none of which triggers a tool call (this bot declares no tools; every
successful completion resolves to a plain assistant message) and with every
completion call succeeding, the Message Store after N iterations contains
exactly 1 + 2N turns: the system turn first, then user and assistant turns
in strict alternation. -/
theorem C1_store_alternation (oracle : Nat → Except Unit Response)
    (inputs : List String)
    (hexit : ∀ s ∈ inputs, toLocaleLowerCase s ≠ "exit")
    (hok : ∀ j, ∃ resp m, oracle j = .ok resp ∧ respMessage resp = some m ∧
      m.role = some "assistant") :
    (mainLoop oracle inputs).finalMem.length = 1 + 2 * inputs.length ∧
    (mainLoop oracle inputs).finalMem.map Turn.role =
      some "system" :: altRoles inputs.length := by
  have hmap := map_role_runLoopFrom oracle hok inputs hexit 0 chatMemory
  have hmap' : (mainLoop oracle inputs).finalMem.map Turn.role =
      some "system" :: altRoles inputs.length := by
    rw [mainLoop, hmap]
    rfl
  refine ⟨?_, hmap'⟩
  have hlen := congrArg List.length hmap'
  simp only [List.length_map, List.length_cons, altRoles_length] at hlen
  omega

/-- Witness for C1: two user turns against an always-well-formed oracle give
five stored turns with roles system, user, assistant, user, assistant. -/
theorem C1_store_alternation_witness :
    (mainLoop oracleOk ["hi", "there"]).finalMem.length =
      1 + 2 * (["hi", "there"] : List String).length ∧
    (mainLoop oracleOk ["hi", "there"]).finalMem.map Turn.role =
      some "system" :: altRoles (["hi", "there"] : List String).length :=
  C1_store_alternation oracleOk ["hi", "there"] (by decide)
    (fun _ => ⟨respOk, msgOk, rfl, rfl, rfl⟩)

/-- C2: an input whose lowercase form is "exit", read while the loop awaits
input, ends the loop with no further completion call and no further turn
appended to the Message Store. -/
theorem C2_exit_token_stops (oracle : Nat → Except Unit Response)
    (input : String) (rest : List String) (k : Nat) (mem : List Turn)
    (h : toLocaleLowerCase input = "exit") :
    runLoopFrom oracle (input :: rest) k mem =
      ⟨mem, 0, [], [], some .exited⟩ :=
  runLoopFrom_exit oracle input rest k mem h

/-- Witness for C2: typing EXIT right away ends the run with zero calls and
the memory still the seeded system turn. -/
theorem C2_exit_token_stops_witness :
    runLoopFrom oracleOk ["EXIT"] 0 chatMemory =
      ⟨chatMemory, 0, [], [], some .exited⟩ :=
  C2_exit_token_stops oracleOk "EXIT" [] 0 chatMemory (by decide)

/-- C3: every history handed to the completion client is exactly the full
conversation history at call time, in insertion order: the i-th request is
the store state recorded at the push made just before the i-th call, each
request is a prefix of the final store, and one request is recorded per
call. -/
theorem C3_full_history_each_call (oracle : Nat → Except Unit Response)
    (inputs : List String) (q : List Turn) (i : Nat)
    (hq : q ∈ (mainLoop oracle inputs).reqs) :
    q <+: (mainLoop oracle inputs).finalMem ∧
    (mainLoop oracle inputs).reqs[i]? = (mainLoop oracle inputs).snaps[2 * i]? ∧
    (mainLoop oracle inputs).reqs.length = (mainLoop oracle inputs).calls :=
  ⟨reqs_prefix_finalMem oracle inputs 0 chatMemory q hq,
    reqs_getElem_snaps oracle inputs 0 chatMemory i,
    reqs_length_calls oracle inputs 0 chatMemory⟩

/-- Witness for C3: on one successful turn the single request sent is the
system turn followed by the user turn, a prefix of the final store. -/
theorem C3_full_history_each_call_witness :
    [systemTurn, userTurn "hi"] <+: (mainLoop oracleOk ["hi"]).finalMem ∧
    (mainLoop oracleOk ["hi"]).reqs[0]? = (mainLoop oracleOk ["hi"]).snaps[2 * 0]? ∧
    (mainLoop oracleOk ["hi"]).reqs.length = (mainLoop oracleOk ["hi"]).calls :=
  C3_full_history_each_call oracleOk ["hi"] [systemTurn, userTurn "hi"] 0
    (by decide)

/-- C4: the Message Store is append-only: every recorded store state during
a run extends the previous one by exactly one turn at the end, the final
store is the last recorded state, and every reachable state still starts
with the initial system turn. -/
theorem C4_append_only (oracle : Nat → Except Unit Response)
    (inputs : List String) (s : List Turn)
    (hs : s ∈ chatMemory :: (mainLoop oracle inputs).snaps) :
    chainB chatMemory (mainLoop oracle inputs).snaps = true ∧
    (chatMemory :: (mainLoop oracle inputs).snaps).getLast? =
      some (mainLoop oracle inputs).finalMem ∧
    s.head? = some systemTurn := by
  refine ⟨chainB_snaps oracle inputs 0 chatMemory,
    getLast_snaps oracle inputs 0 chatMemory, ?_⟩
  rcases List.mem_cons.mp hs with rfl | hs'
  · rfl
  · exact chainB_head_eq systemTurn _ chatMemory
      (chainB_snaps oracle inputs 0 chatMemory) rfl s hs'

/-- Witness for C4: a crashing one-turn run records a single push extending
the seeded store, which still starts with the system turn. -/
theorem C4_append_only_witness :
    chainB chatMemory (mainLoop oracleErr ["hi"]).snaps = true ∧
    (chatMemory :: (mainLoop oracleErr ["hi"]).snaps).getLast? =
      some (mainLoop oracleErr ["hi"]).finalMem ∧
    chatMemory.head? = some systemTurn :=
  C4_append_only oracleErr ["hi"] chatMemory (by simp)

/-- C5: a completion call that fails with a remote error (the SDK promise
rejects) crashes the run: the process exit status is 1 and the store still
holds exactly the turns present when the call was issued, with no assistant
turn appended from the failed response. -/
theorem C5_remote_error_crash (oracle : Nat → Except Unit Response)
    (input : String) (rest : List String) (k : Nat) (mem : List Turn)
    (hne : toLocaleLowerCase input ≠ "exit")
    (herr : oracle k = .error ()) :
    (runLoopFrom oracle (input :: rest) k mem).finalMem =
      mem ++ [userTurn input] ∧
    (runLoopFrom oracle (input :: rest) k mem).outcome =
      some (.crashed .apiReject) ∧
    runExit (runLoopFrom oracle (input :: rest) k mem) = some 1 := by
  have hc : completionCall (oracle k) (mem ++ [userTurn input]) =
      .error .apiReject := by
    rw [herr]
    rfl
  rw [runLoopFrom_err oracle input rest k mem .apiReject hne hc]
  exact ⟨rfl, rfl, rfl⟩

/-- Witness for C5: a rejected first call leaves the store at system turn
plus the user turn and ends the process with status 1. -/
theorem C5_remote_error_crash_witness :
    (runLoopFrom oracleErr ["hi"] 0 chatMemory).finalMem =
      chatMemory ++ [userTurn "hi"] ∧
    (runLoopFrom oracleErr ["hi"] 0 chatMemory).outcome =
      some (.crashed .apiReject) ∧
    runExit (runLoopFrom oracleErr ["hi"] 0 chatMemory) = some 1 :=
  C5_remote_error_crash oracleErr "hi" [] 0 chatMemory (by decide) rfl

/-- C6: with GROQ_API_KEY absent from the environment, both scripts die on
the startup guard before making any completion call or doing any other
work: the chat process never enters its loop and the basics process never
enters its main function. -/
theorem C6_missing_credential (env : String → Option String)
    (oracle : Nat → Except Unit Response) (inputs : List String)
    (api : Except Unit Response) (write : Except Unit Unit)
    (h : env "GROQ_API_KEY" = none) :
    chatProgram env oracle inputs = .configError ∧
    progCalls (chatProgram env oracle inputs) = 0 ∧
    (basicsProgram env api write).configError = true ∧
    (basicsProgram env api write).calls = 0 ∧
    (basicsProgram env api write).saved = false := by
  have hso : startupOk env = false := by
    rw [startupOk, h]
  refine ⟨?_, ?_, ?_, ?_, ?_⟩ <;>
    simp [chatProgram, basicsProgram, progCalls, hso]

/-- Witness for C6: the empty environment stops both scripts at startup. -/
theorem C6_missing_credential_witness :
    chatProgram envEmpty oracleOk ["hi"] = .configError ∧
    progCalls (chatProgram envEmpty oracleOk ["hi"]) = 0 ∧
    (basicsProgram envEmpty (.ok respOk) (.ok ())).configError = true ∧
    (basicsProgram envEmpty (.ok respOk) (.ok ())).calls = 0 ∧
    (basicsProgram envEmpty (.ok respOk) (.ok ())).saved = false :=
  C6_missing_credential envEmpty oracleOk ["hi"] (.ok respOk) (.ok ()) rfl

/-- C7 counterexample: the claim says every error makes the program exit
with a non-zero status, for the basics script as well; but a basics run
whose completion call fails prints its diagnostic and exits with status 0,
because main catches the error without rethrowing. -/
theorem C7_counterexample_basics_exit_zero :
    (basicsProgram envOk (.error ()) (.ok ())).printed =
      ["Error in main function:"] ∧
    (basicsProgram envOk (.error ()) (.ok ())).exitCode = 0 := by
  constructor <;> rfl

/-- C7 as amended: no error is silently swallowed — each failing run prints
a diagnostic — and the chat loop exits with status 1 on a crash; the basics
script, however, catches errors inside main and its process exits with
status 0. -/
theorem C7_diagnostics_amended (env : String → Option String)
    (api : Except Unit Response) (write : Except Unit Unit)
    (oracle : Nat → Except Unit Response) (inputs : List String)
    (e : CompletionError)
    (henv : startupOk env = true)
    (herr : api = .error () ∨ write = .error ())
    (hcrash : (mainLoop oracle inputs).outcome = some (.crashed e)) :
    (basicsProgram env api write).printed ≠ [] ∧
    (basicsProgram env api write).exitCode = 0 ∧
    runStderr (mainLoop oracle inputs) ≠ [] ∧
    runExit (mainLoop oracle inputs) = some 1 := by
  refine ⟨?_, ?_, ?_, ?_⟩
  · rcases herr with rfl | rfl
    · simp [basicsProgram, henv]
    · cases api with
      | error u => simp [basicsProgram, henv]
      | ok r => simp [basicsProgram, henv]
  · rcases herr with rfl | rfl
    · simp [basicsProgram, henv]
    · cases api with
      | error u => simp [basicsProgram, henv]
      | ok r => simp [basicsProgram, henv]
  · simp [runStderr, hcrash]
  · simp [runExit, hcrash]

/-- Witness for the amended C7: a failing completion call makes basics print
and exit 0 while the same failure crashes the chat loop with status 1. -/
theorem C7_diagnostics_amended_witness :
    (basicsProgram envOk (.error ()) (.ok ())).printed ≠ [] ∧
    (basicsProgram envOk (.error ()) (.ok ())).exitCode = 0 ∧
    runStderr (mainLoop oracleErr ["hi"]) ≠ [] ∧
    runExit (mainLoop oracleErr ["hi"]) = some 1 :=
  C7_diagnostics_amended envOk (.error ()) (.ok ()) oracleErr ["hi"]
    .apiReject rfl (Or.inl rfl) (by decide)

/-- C8 as amended: a payload whose message itself is missing — an empty
choices array, or a first choice without a `message` field — makes
chatCompletion fail (the property access throws, classified RemoteError by
the spec) instead of succeeding, and nothing is appended to the store.  The
original claim quantified over every malformed payload; it fails on a
message object that is present but missing its expected role and content
fields, see the counterexample below. -/
theorem C8_malformed_payload_fails (resp : Response) (mem : List Turn)
    (h : resp.choices = [] ∨ ∃ c cs, resp.choices = c :: cs ∧ c.message = none) :
    chatCompletion resp mem = .error .malformedPayload := by
  have hrm : respMessage resp = none := by
    rcases h with h | ⟨c, cs, hc, hm⟩
    · simp [respMessage, h]
    · simp [respMessage, hc, hm]
  exact chatCompletion_of_respMessage_none resp mem hrm

/-- Witness for C8: the empty-choices payload fails the completion step. -/
theorem C8_malformed_payload_fails_witness :
    chatCompletion respEmpty chatMemory = .error .malformedPayload :=
  C8_malformed_payload_fails respEmpty chatMemory (Or.inl rfl)

/-- C8 counterexample: a malformed payload whose message object is present
but missing its expected role and content fields does not make the
completion step fail — the fields read as undefined and the operation
succeeds with the degenerate turn, which the original claim rules out. -/
theorem C8_counterexample_degenerate_turn :
    chatCompletion respNoFields chatMemory =
      .ok (chatMemory ++ [{ role := none, content := none }]) := by
  rfl

/-- C9: any input other than the termination token — the empty string
included — is appended verbatim as a user turn and a completion call is
issued whose history ends with exactly that turn; no validation or
filtering happens on the way. -/
theorem C9_verbatim_user_turn (oracle : Nat → Except Unit Response)
    (input : String) (rest : List String) (k : Nat) (mem : List Turn)
    (hne : toLocaleLowerCase input ≠ "exit") :
    (runLoopFrom oracle (input :: rest) k mem).reqs.head? =
      some (mem ++ [{ role := some "user", content := some input }]) ∧
    1 ≤ (runLoopFrom oracle (input :: rest) k mem).calls := by
  cases hc : completionCall (oracle k) (mem ++ [userTurn input]) with
  | ok mem2 =>
    rw [runLoopFrom_ok oracle input rest k mem mem2 hne hc]
    exact ⟨rfl, by simp⟩
  | error e =>
    rw [runLoopFrom_err oracle input rest k mem e hne hc]
    exact ⟨rfl, le_refl 1⟩

/-- Witness for C9: the empty input line is stored verbatim and still
triggers a completion call. -/
theorem C9_verbatim_user_turn_witness :
    (runLoopFrom oracleOk [""] 0 chatMemory).reqs.head? =
      some (chatMemory ++ [{ role := some "user", content := some "" }]) ∧
    1 ≤ (runLoopFrom oracleOk [""] 0 chatMemory).calls :=
  C9_verbatim_user_turn oracleOk "" [] 0 chatMemory (by decide)

/-- C10: on a successful completion the turn appended to the store is built
from exactly the role and content fields of the response message; every
other field of that message, a tool-call request included, is discarded --
the result below does not depend on the tool-call field of m. -/
theorem C10_role_content_only (resp : Response) (mem : List Turn)
    (m : RespMessage) (h : respMessage resp = some m) :
    chatCompletion resp mem =
      .ok (mem ++ [{ role := m.role, content := m.content }]) :=
  chatCompletion_of_respMessage_some resp mem m h

/-- Witness for C10: a response message carrying a tool-call request is
stored as a two-field turn, the request dropped. -/
theorem C10_role_content_only_witness :
    chatCompletion respTool chatMemory =
      .ok (chatMemory ++
        [{ role := some "assistant", content := some "calling a tool" }]) :=
  C10_role_content_only respTool chatMemory msgTool rfl
